import Mathlib

/-!
Verification of the redisify distributed-coordination primitives.

Shallow embedding of the coordination primitives in
`redisify/distributed/lock.py`, `redisify/distributed/semaphore.py`,
`redisify/distributed/limiter.py` and of the value codec in
`redisify/serializer.py`.  Redis state relevant to each primitive is
modelled explicitly (an `Option String` for a single lock key, a pair of
keys for the reader/writer lock, a list for the semaphore, a counter with
an expiry deadline for the rate limiter).  Each Lua script or single Redis
command is one atomic step function; arbitrary client interleavings are
step relations whose reachable states are closed under those steps.
-/

/-! ## Mutual-exclusion lock (`RedisLock`, lock.py)

The lock key `redisify:lock:{name}` either is absent (`none`) or holds the
token of the current holder (`some tok`). -/

/-- One acquisition attempt: `SET name token NX` (lock.py line 54).
Sets the key only if absent; returns the new key state and whether the
set happened (Redis returns nil on failure, which is falsy in Python). -/
def lockTryAcquire (key : Option String) (token : String) : Option String × Bool :=
  match key with
  | Option.none => (some token, true)
  | some v => (some v, false)

/-- The release script of `RedisLock.release` (lock.py lines 70-77):
`if GET == token then DEL else nothing`, executed as one atomic script. -/
def lockRelease (key : Option String) (token : String) : Option String :=
  if key = some token then Option.none else key

/-- `RedisLock.release` in Python has no raise path: the script result is
discarded and the coroutine returns normally whatever the key held.
Wrapping the state change in `Except` records that no error is reported. -/
def lockReleaseE (key : Option String) (token : String) : Except String (Option String) :=
  Except.ok (lockRelease key token)

/-! ## Reader/writer lock (`RedisRWLock`, lock.py)

State: the write key (`redisify:rwlock:{name}:write`, absent or holding the
writer token) and the readers counter key (`redisify:rwlock:{name}:readers`,
absent or holding an integer manipulated only by INCR/DECR). -/

structure RWState where
  write : Option String
  readers : Option Int
  deriving DecidableEq

/-- Integer value of the readers counter key; an absent key reads as 0
(Redis INCR/DECR treat a missing key as 0). -/
def rwReaders (s : RWState) : Int :=
  s.readers.getD 0

/-- The acquire-read script (lock.py lines 140-146): atomically, if the
write key is absent, INCR the readers key and return the new value, else
return 0.  The Python caller treats a nonzero return as success. -/
def acquireReadStep (s : RWState) : RWState × Int :=
  match s.write with
  | Option.none => (⟨Option.none, some (rwReaders s + 1)⟩, rwReaders s + 1)
  | some w => (⟨some w, s.readers⟩, 0)

/-- `release_read`'s store effect (lock.py line 161): a bare DECR of the
readers key. -/
def releaseReadStep (s : RWState) : RWState :=
  ⟨s.write, some (rwReaders s - 1)⟩

/-- The acquire-write script (lock.py lines 170-176): atomically, if the
write key is absent and the readers key reads as absent (`GET == false`)
or as the string `'0'`, set the write key to the caller's token.  The
readers key is only ever written by INCR/DECR, so its stored string is the
canonical decimal rendering and equals `'0'` exactly when the integer is
zero. -/
def acquireWriteStep (s : RWState) (token : String) : RWState × Int :=
  if s.write = Option.none ∧ (s.readers = Option.none ∨ s.readers = some 0) then
    (⟨some token, s.readers⟩, 1)
  else
    (s, 0)

/-- The release-write script (lock.py lines 191-197): delete the write key
only if it holds the caller's token. -/
def releaseWriteStep (s : RWState) (token : String) : RWState :=
  if s.write = some token then ⟨Option.none, s.readers⟩ else s

/-- `RedisRWLock.release_read` (lock.py lines 153-162): raises
`RuntimeError` when the handle's local `_is_reader` flag is false,
otherwise DECRs the readers key and clears the flag. -/
def rwReleaseRead (isReader : Bool) (s : RWState) : Except String (RWState × Bool) :=
  if isReader then
    Except.ok (releaseReadStep s, false)
  else
    Except.error "Cannot release read lock: not held by this instance."

/-- `RedisRWLock.release_write` (lock.py lines 183-199): raises
`RuntimeError` when the handle's local `_is_writer` flag is false,
otherwise runs the compare-and-delete script and clears the flag. -/
def rwReleaseWrite (isWriter : Bool) (s : RWState) (token : String) :
    Except String (RWState × Bool) :=
  if isWriter then
    Except.ok (releaseWriteStep s token, false)
  else
    Except.error "Cannot release write lock: not held by this instance."

/-- Initial store state of a reader/writer lock: neither key exists. -/
def rwInitState : RWState :=
  ⟨Option.none, Option.none⟩

/-- One atomic store step of the reader/writer lock protocol, taken by an
arbitrary client. -/
inductive RWStep : RWState → RWState → Prop
  | acquireRead (s : RWState) : RWStep s (acquireReadStep s).1
  | releaseRead (s : RWState) : RWStep s (releaseReadStep s)
  | acquireWrite (s : RWState) (token : String) : RWStep s (acquireWriteStep s token).1
  | releaseWrite (s : RWState) (token : String) : RWStep s (releaseWriteStep s token)

/-- States reachable from the empty store under any interleaving of the
atomic reader/writer steps. -/
def RWReachable (s : RWState) : Prop :=
  Relation.ReflTransGen RWStep rwInitState s

/-- State after `n` consecutive successful `acquire_read` script runs
starting from the empty store with no intervening releases or writers. -/
def readAcquireIter : Nat → RWState
  | 0 => rwInitState
  | n + 1 => (acquireReadStep (readAcquireIter n)).1

/-! ## Counting semaphore (`RedisSemaphore`, semaphore.py)

The key `redisify:semaphore:{name}` holds a Redis list of permit entries
(acquisition timestamps); `LPUSH` conses an entry, `RPOP` drops the last
entry, `LLEN` is the length. -/

/-- The `LUA_SEMAPHORE_ACQUIRE` script (semaphore.py lines 5-17): in one
atomic step, if `LLEN < limit` then LPUSH a new entry and return 1, else
return 0. -/
def semTryAcquire (limit : Nat) (entry : String) (l : List String) : List String × Bool :=
  if l.length < limit then (entry :: l, true) else (l, false)

/-- `RedisSemaphore.release` (semaphore.py line 116): a bare `RPOP`, which
on an empty or absent list is a no-op returning nil (no error). -/
def semRelease (l : List String) : List String :=
  l.dropLast

/-- `RedisSemaphore.value` (semaphore.py line 125): `LLEN`. -/
def semValue (l : List String) : Nat :=
  l.length

/-- One atomic store step of the semaphore protocol, taken by an arbitrary
client: an acquire script run (with some timestamp entry) or a release. -/
inductive SemStep (limit : Nat) : List String → List String → Prop
  | acquire (entry : String) (l : List String) : SemStep limit l (semTryAcquire limit entry l).1
  | release (l : List String) : SemStep limit l (semRelease l)

/-- Permit lists reachable from the empty list under any interleaving of
acquire and release steps of a semaphore with the given limit. -/
def SemReachable (limit : Nat) (l : List String) : Prop :=
  Relation.ReflTransGen (SemStep limit) [] l

/-! ## Rate limiter (`RedisLimiter`, limiter.py)

The key `redisify:limiter:{name}` holds a counter with a time-to-live.
`acquire()` runs `INCR key; EXPIRE key int(time_period)` under the
limiter's internal `RedisLock`, so the pipeline is one logical step.
The state is `none` (key absent) or `some (count, expireAt)`; Redis
removes the key once the deadline passes, which the model applies lazily
at each access.  Time is modelled in integer ticks and the parameter `T`
stands for `int(time_period)`. -/

def LimState : Type :=
  Option (Nat × Nat)

/-- Expiry applied at observation time `t`: the key is gone once its
deadline is ≤ `t`. -/
def limNorm (s : LimState) (t : Nat) : LimState :=
  match s with
  | Option.none => Option.none
  | some (c, e) => if e ≤ t then Option.none else some (c, e)

/-- Counter value observable at time `t` (an absent key reads as 0). -/
def limiterCount (s : LimState) (t : Nat) : Nat :=
  match limNorm s t with
  | Option.none => 0
  | some (c, _) => c

/-- Count stored in the key, ignoring expiry (`none` when absent). -/
def limStored (s : LimState) : Option Nat :=
  match s with
  | Option.none => Option.none
  | some (c, _) => some c

/-- `RedisLimiter.acquire` (limiter.py lines 32-38): under the internal
lock, `INCR` the counter (restarting from 0 if the key expired), then
`EXPIRE` it to `t + T`, and return whether the incremented count is within
`rate_limit`.  Returns the new key state and the boolean result. -/
def limiterAcquire (R T : Nat) (s : LimState) (t : Nat) : LimState × Bool :=
  let c := limiterCount s t
  (some (c + 1, t + T), decide (c + 1 ≤ R))

/-- Run a sequence of `acquire()` calls at the given times, collecting the
returned booleans and the final key state. -/
def limiterRun (R T : Nat) (s : LimState) : List Nat → List Bool × LimState
  | [] => ([], s)
  | t :: ts =>
      let p := limiterAcquire R T s t
      let q := limiterRun R T p.1 ts
      (p.2 :: q.1, q.2)

/-! ## Key naming (lock.py lines 35, 126-128; semaphore.py line 64) -/

/-- Store key of a mutual-exclusion lock named `n` (lock.py line 35). -/
def lockKeyOf (n : String) : String :=
  "redisify:lock:" ++ n

/-- Store key of a semaphore named `n` (semaphore.py line 64). -/
def semKeyOf (n : String) : String :=
  "redisify:semaphore:" ++ n

/-- Base key of a reader/writer lock named `n` (lock.py line 126). -/
def rwBaseOf (n : String) : String :=
  "redisify:rwlock:" ++ n

/-- Write key of a reader/writer lock (lock.py line 127). -/
def rwWriteKeyOf (n : String) : String :=
  rwBaseOf n ++ ":write"

/-- Readers-counter key of a reader/writer lock (lock.py line 128). -/
def rwReadersKeyOf (n : String) : String :=
  rwBaseOf n ++ ":readers"

/-! ## Value codec (`Serializer`, serializer.py)

`serialize` tries `json.dumps(obj, default=_default_json_encoder)` and, on
`TypeError`/`ValueError`, falls back to
`json.dumps({"__format__": "pickle", "data": base64(pickle.dumps(obj))})`.
`deserialize` parses the JSON text; a parsed dict whose `__format__` key
equals `"pickle"` is base64/pickle-decoded, anything else is returned as
the parsed JSON value; any failure raises `ValueError`.

The model keeps values in parsed form.  `JVal` is a parsed JSON document
(the `json.dumps`/`json.loads` text layer round-trips it exactly).
`PyVal` is a Python value the codec can receive: JSON primitives, lists,
tuples, sets, dicts with arbitrary keys, `datetime`/`UUID` carried as
their `str()` rendering, and opaque picklable objects (`pyobj`).  Floats
are outside the model.  `pickle.dumps`/`pickle.loads` are stdlib
collaborators modelled as a perfect inverse pair, so a pickled payload is
carried as the value itself (`Wire.pickleText`); a user-supplied JSON dict
that merely looks like the pickle wrapper carries arbitrary text in its
`"data"` field, whose pickle-decoding fails in the model as it does (up to
freak collisions) in Python. -/

inductive JVal where
  | null : JVal
  | jbool (b : Bool) : JVal
  | jint (n : Int) : JVal
  | jstr (s : String) : JVal
  | jarr (xs : List JVal) : JVal
  | jobj (kvs : List (String × JVal)) : JVal

inductive PyVal where
  | pynone : PyVal
  | pybool (b : Bool) : PyVal
  | pyint (n : Int) : PyVal
  | pystr (s : String) : PyVal
  | pylist (xs : List PyVal) : PyVal
  | pytuple (xs : List PyVal) : PyVal
  | pyset (xs : List PyVal) : PyVal
  | pydict (kvs : List (PyVal × PyVal)) : PyVal
  | pydatetime (s : String) : PyVal
  | pyuuid (s : String) : PyVal
  | pyobj (id : Nat) : PyVal

/-- Encoding of a dict key by `json.dumps`: string keys pass through,
int/bool/None keys are coerced to their JSON text, and any other key type
raises `TypeError` (sending the whole value to the pickle fallback). -/
def keyEncode : PyVal → Option String
  | .pystr s => some s
  | .pyint n => some (toString n)
  | .pybool b => some (cond b "true" "false")
  | .pynone => some "null"
  | _ => Option.none

mutual

/-- `json.dumps(obj, default=Serializer._default_json_encoder)`
(serializer.py lines 14-16, 34-43) as a partial map into parsed JSON:
`none` models the `TypeError` that triggers the pickle fallback.  The
default encoder coerces `datetime`/`UUID` to `str(obj)`, sets to lists,
tuples serialize natively as arrays; objects handled by none of these
raise `TypeError`. -/
def jsonEncode : PyVal → Option JVal
  | .pynone => some .null
  | .pybool b => some (.jbool b)
  | .pyint n => some (.jint n)
  | .pystr s => some (.jstr s)
  | .pydatetime s => some (.jstr s)
  | .pyuuid s => some (.jstr s)
  | .pylist xs =>
      match jsonEncodeList xs with
      | some js => some (.jarr js)
      | Option.none => Option.none
  | .pytuple xs =>
      match jsonEncodeList xs with
      | some js => some (.jarr js)
      | Option.none => Option.none
  | .pyset xs =>
      match jsonEncodeList xs with
      | some js => some (.jarr js)
      | Option.none => Option.none
  | .pydict kvs =>
      match jsonEncodeKVs kvs with
      | some js => some (.jobj js)
      | Option.none => Option.none
  | .pyobj _ => Option.none

def jsonEncodeList : List PyVal → Option (List JVal)
  | [] => some []
  | v :: vs =>
      match jsonEncode v, jsonEncodeList vs with
      | some j, some js => some (j :: js)
      | _, _ => Option.none

def jsonEncodeKVs : List (PyVal × PyVal) → Option (List (String × JVal))
  | [] => some []
  | (k, v) :: kvs =>
      match keyEncode k, jsonEncode v, jsonEncodeKVs kvs with
      | some ks, some j, some js => some ((ks, j) :: js)
      | _, _, _ => Option.none

end

mutual

/-- The Python value produced by `json.loads` for a parsed JSON document:
arrays come back as lists (never tuples or sets) and object keys come back
as strings. -/
def jToPy : JVal → PyVal
  | .null => .pynone
  | .jbool b => .pybool b
  | .jint n => .pyint n
  | .jstr s => .pystr s
  | .jarr xs => .pylist (jToPyList xs)
  | .jobj kvs => .pydict (jToPyKVs kvs)

def jToPyList : List JVal → List PyVal
  | [] => []
  | j :: js => jToPy j :: jToPyList js

def jToPyKVs : List (String × JVal) → List (PyVal × PyVal)
  | [] => []
  | (k, j) :: kvs => (.pystr k, jToPy j) :: jToPyKVs kvs

end

/-- First value of the `"__format__"` key equals `"pickle"` (Python dicts
have unique keys, so first lookup is dict lookup). -/
def isWrapperEntries : List (String × JVal) → Bool
  | [] => false
  | (k, v) :: rest =>
      if k = "__format__" then
        match v with
        | .jstr s => decide (s = "pickle")
        | _ => false
      else isWrapperEntries rest

/-- The check `isinstance(obj, dict) and obj.get("__format__") == "pickle"`
of `Serializer.deserialize` (serializer.py line 27). -/
def isPickleWrapper : JVal → Bool
  | .jobj kvs => isWrapperEntries kvs
  | _ => false

/-- Serialized text, in parsed form: either the JSON rendering of a parsed
document, or the pickle wrapper object carrying a pickled payload. -/
inductive Wire where
  | jsonText (j : JVal) : Wire
  | pickleText (v : PyVal) : Wire

/-- `Serializer.serialize` (serializer.py lines 14-22): JSON when the
encoder accepts the value, else the base64-pickle wrapper (the default
`use_pickle_fallback=True` configuration). -/
def serialize (v : PyVal) : Wire :=
  match jsonEncode v with
  | some j => Wire.jsonText j
  | Option.none => Wire.pickleText v

/-- `Serializer.deserialize` (serializer.py lines 24-32): a parsed dict
marked `"__format__": "pickle"` is pickle-decoded (exact for payloads the
serializer produced, a `ValueError` for look-alike user dicts whose
`"data"` is not a pickle); every other parsed value is returned as is. -/
def deserialize : Wire → Except String PyVal
  | .pickleText v => Except.ok v
  | .jsonText j =>
      if isPickleWrapper j then Except.error "Failed to deserialize"
      else Except.ok (jToPy j)

/-- Does some key of the dict literally read `"__format__"`?  Such dicts
can collide with the pickle-wrapper marker on the decode path. -/
def hasFormatKey : List (PyVal × PyVal) → Bool
  | [] => false
  | (k, _) :: rest =>
      (match k with
       | PyVal.pystr s => decide (s = "__format__")
       | _ => false) || hasFormatKey rest

mutual

/-- The JSON-faithful fragment of `PyVal`: values whose JSON text parses
back to the very same Python value — primitives, lists of faithful values,
and dicts with string keys (none of them the reserved `"__format__"`
marker) and faithful values. -/
def jsonFaithful : PyVal → Bool
  | .pynone => true
  | .pybool _ => true
  | .pyint _ => true
  | .pystr _ => true
  | .pylist xs => jsonFaithfulList xs
  | .pydict kvs => jsonFaithfulKVs kvs && !hasFormatKey kvs
  | _ => false

def jsonFaithfulList : List PyVal → Bool
  | [] => true
  | v :: vs => jsonFaithful v && jsonFaithfulList vs

def jsonFaithfulKVs : List (PyVal × PyVal) → Bool
  | [] => true
  | (k, v) :: kvs =>
      (match k with
       | PyVal.pystr _ => true
       | _ => false) && jsonFaithful v && jsonFaithfulKVs kvs

end

/-! ## Theorems -/

/-- C1. Token safety of `RedisLock.release`: if the key holds a foreign
token `t2 ≠ t1`, releasing with token `t1` leaves the key and its stored
value unchanged; the atomic script deletes the key exactly when the stored
value equals the caller's own token. -/
theorem lock_release_token_safety (key : Option String) (t1 : String) :
    (∀ t2 : String, key = some t2 → t1 ≠ t2 → lockRelease key t1 = key) ∧
    (key = some t1 → lockRelease key t1 = Option.none) ∧
    (lockRelease key t1 = Option.none ↔ key = Option.none ∨ key = some t1) := by
  refine ⟨?_, ?_, ?_⟩
  · intro t2 hk hne
    have hne2 : t2 ≠ t1 := fun h => hne h.symm
    simp [lockRelease, hk, hne2]
  · intro hk
    simp [lockRelease, hk]
  · cases key with
    | none => simp [lockRelease]
    | some v =>
        by_cases hv : v = t1
        · simp [lockRelease, hv]
        · simp [lockRelease, hv]

theorem lock_release_token_safety_witness :
    lockRelease (some "holder-b") "holder-a" = some "holder-b" ∧
    lockRelease (some "holder-a") "holder-a" = Option.none :=
  ⟨(lock_release_token_safety (some "holder-b") "holder-a").1 "holder-b" rfl
      (by decide),
   (lock_release_token_safety (some "holder-a") "holder-a").2.1 rfl⟩

/-- C10. The mutual-exclusion lock is non-reentrant: whenever the lock key
exists — including when it already holds the attempting handle's own
token — a single `SET NX` attempt fails and leaves the key unchanged. -/
theorem lock_acquire_non_reentrant (key : Option String) (token : String)
    (h : key.isSome = true) :
    lockTryAcquire key token = (key, false) := by
  cases key with
  | none => simp at h
  | some v => simp [lockTryAcquire]

theorem lock_acquire_non_reentrant_witness :
    lockTryAcquire (some "tok") "tok" = (some "tok", false) :=
  lock_acquire_non_reentrant (some "tok") "tok" rfl

/-- Helper: each atomic reader/writer step preserves the inductive
invariant "if the write key exists, the readers counter is ≤ 0". -/
theorem rw_inv_step {s s' : RWState} (h : RWStep s s')
    (hs : s.write.isSome = true → rwReaders s ≤ 0) :
    s'.write.isSome = true → rwReaders s' ≤ 0 := by
  obtain ⟨w, r⟩ := s
  cases h with
  | acquireRead =>
      cases w with
      | none => simp [acquireReadStep, rwReaders]
      | some wt =>
          intro _
          simpa [acquireReadStep, rwReaders] using hs (by simp)
  | releaseRead =>
      intro hw
      have h0 := hs (by simpa [releaseReadStep] using hw)
      simp only [releaseReadStep, rwReaders, Option.getD_some] at h0 ⊢
      omega
  | acquireWrite token =>
      by_cases hc : w = Option.none ∧ (r = Option.none ∨ r = some 0)
      · obtain ⟨hw, hr⟩ := hc
        subst hw
        rcases hr with hr | hr <;> subst hr <;>
          simp [acquireWriteStep, rwReaders]
      · simpa [acquireWriteStep, hc] using hs
  | releaseWrite token =>
      by_cases hw : w = some token
      · subst hw
        simp [releaseWriteStep]
      · simpa [releaseWriteStep, hw] using hs

/-- Helper: every reachable reader/writer state satisfies the inductive
invariant. -/
theorem rw_reachable_inv (s : RWState) (h : RWReachable s) :
    s.write.isSome = true → rwReaders s ≤ 0 := by
  induction h with
  | refl => simp [rwInitState]
  | tail _ hstep ih => exact rw_inv_step hstep ih

/-- C2. Reader/writer exclusivity: no state reachable under any
interleaving of the atomic steps has the write key present together with a
positive readers counter; and N successful back-to-back `acquire_read`
script runs from the empty store (no releases, no writer) leave the
readers counter at N, each run returning the positive value that the
Python caller treats as success. -/
theorem rwlock_exclusivity :
    (∀ s : RWState, RWReachable s → ¬(s.write.isSome = true ∧ 0 < rwReaders s)) ∧
    (∀ n : Nat,
      (readAcquireIter n).write = Option.none ∧
      rwReaders (readAcquireIter n) = (n : Int) ∧
      (acquireReadStep (readAcquireIter n)).2 = (n : Int) + 1) := by
  constructor
  · rintro s hs ⟨hw, hr⟩
    have := rw_reachable_inv s hs hw
    omega
  · intro n
    induction n with
    | zero => simp [readAcquireIter, rwInitState, acquireReadStep, rwReaders]
    | succ n ih =>
        obtain ⟨ihw, ihr, _⟩ := ih
        have ihr2 : (readAcquireIter n).readers.getD 0 = (n : Int) := ihr
        refine ⟨?_, ?_, ?_⟩
        · simp [readAcquireIter, acquireReadStep, ihw]
        · simp [readAcquireIter, acquireReadStep, ihw, rwReaders, ihr2]
        · simp [readAcquireIter, acquireReadStep, ihw, rwReaders, ihr2]

theorem rwlock_exclusivity_witness :
    ¬((⟨Option.none, some 1⟩ : RWState).write.isSome = true ∧
      0 < rwReaders ⟨Option.none, some 1⟩) :=
  rwlock_exclusivity.1 ⟨Option.none, some 1⟩
    (Relation.ReflTransGen.single (RWStep.acquireRead rwInitState))

/-- Helper: each atomic semaphore step preserves the length bound. -/
theorem sem_inv_step {limit : Nat} {l l' : List String} (h : SemStep limit l l')
    (hl : l.length ≤ limit) : l'.length ≤ limit := by
  cases h with
  | acquire entry =>
      by_cases hlt : l.length < limit
      · simp only [semTryAcquire, if_pos hlt, List.length_cons]
        omega
      · simpa [semTryAcquire, hlt] using hl
  | release =>
      have : (semRelease l).length = l.length - 1 := by
        simp [semRelease]
      omega

/-- Helper: every reachable semaphore permit list has length at most the
configured limit. -/
theorem sem_reachable_bound (limit : Nat) (l : List String)
    (h : SemReachable limit l) : l.length ≤ limit := by
  induction h with
  | refl => simp
  | tail _ hstep ih => exact sem_inv_step hstep ih

/-- C3. Semaphore bound: starting from an empty permit list, every state
reachable under any interleaving of the atomic acquire/release steps has
at most `limit` permits (so in particular immediately after every
successful acquire); and the atomic acquire script appends exactly one new
entry when the current length is strictly below the limit, and leaves the
list unchanged otherwise — the length check and the append are one step. -/
theorem semaphore_bound (limit : Nat) :
    (∀ l : List String, SemReachable limit l → semValue l ≤ limit) ∧
    (∀ (entry : String) (l : List String),
      ((semTryAcquire limit entry l).2 = true ↔ l.length < limit) ∧
      ((semTryAcquire limit entry l).2 = true →
        (semTryAcquire limit entry l).1 = entry :: l) ∧
      ((semTryAcquire limit entry l).2 = false →
        (semTryAcquire limit entry l).1 = l)) := by
  refine ⟨fun l h => sem_reachable_bound limit l h, fun entry l => ?_⟩
  by_cases hlt : l.length < limit <;>
    simp [semTryAcquire, hlt]

theorem semaphore_bound_witness :
    semValue ["1700000000.0"] ≤ 1 :=
  (semaphore_bound 1).1 ["1700000000.0"]
    (Relation.ReflTransGen.single (SemStep.acquire "1700000000.0" []))

/-- C9. Semaphore count never underflows: every reachable permit count is
≥ 0, and a release on an empty permit list (a bare RPOP on an empty or
absent list) raises no error, is a no-op, and leaves the count at zero. -/
theorem semaphore_no_underflow (limit : Nat) :
    (∀ l : List String, SemReachable limit l → 0 ≤ (semValue l : Int)) ∧
    semRelease ([] : List String) = [] ∧
    semValue (semRelease ([] : List String)) = 0 := by
  refine ⟨fun l _ => ?_, rfl, rfl⟩
  exact Int.natCast_nonneg _

theorem semaphore_no_underflow_witness :
    0 ≤ (semValue ([] : List String) : Int) :=
  (semaphore_no_underflow 4).1 [] Relation.ReflTransGen.refl

/-- C6 counterexample: `RedisLock.release` called by a handle whose token
does not match the stored value (a foreign-owned lock), and on an absent
key, completes without raising any error — the claim that every lock
primitive reports such a release as a raised exception is false for
`RedisLock.release` (lock.py lines 59-77 contain no raise path). -/
theorem lock_release_foreign_no_error :
    lockReleaseE (some "other-holder") "my-token" = Except.ok (some "other-holder") ∧
    lockReleaseE Option.none "my-token" = Except.ok Option.none := by
  constructor <;> simp [lockReleaseE, lockRelease]

/-- C6 amended: `RedisRWLock.release_read` and `release_write` raise
`RuntimeError` whenever the handle's local held-flag is false, for every
store state; `RedisLock.release` on an unheld or foreign-owned lock is a
silent no-op — it reports no error and leaves a foreign holder's key
unchanged. -/
theorem not_held_reporting :
    (∀ s : RWState, rwReleaseRead false s =
      Except.error "Cannot release read lock: not held by this instance.") ∧
    (∀ (s : RWState) (token : String), rwReleaseWrite false s token =
      Except.error "Cannot release write lock: not held by this instance.") ∧
    (∀ (key : Option String) (token : String),
      lockReleaseE key token = Except.ok (lockRelease key token)) ∧
    (∀ (t1 t2 : String), t1 ≠ t2 →
      lockReleaseE (some t2) t1 = Except.ok (some t2)) := by
  refine ⟨fun s => rfl, fun s token => rfl, fun key token => rfl, ?_⟩
  intro t1 t2 hne
  have hne2 : t2 ≠ t1 := fun h => hne h.symm
  simp [lockReleaseE, lockRelease, hne2]

theorem not_held_reporting_witness :
    rwReleaseRead false rwInitState =
      Except.error "Cannot release read lock: not held by this instance." ∧
    lockReleaseE (some "b") "a" = Except.ok (some "b") :=
  ⟨not_held_reporting.1 rwInitState,
   not_held_reporting.2.2.2 "a" "b" (by decide)⟩

/-- C5. Rate-limiter acquire semantics: each `acquire()` increments the
window counter by one (on top of the value observable at call time, which
is 0 if the key had expired) and returns true iff the incremented value is
at most `rate_limit`; on denial the counter is not decremented, so the
stored count still reflects the denied attempt. -/
theorem limiter_acquire_semantics (R T : Nat) (s : LimState) (t : Nat) :
    limStored ((limiterAcquire R T s t).1) = some (limiterCount s t + 1) ∧
    ((limiterAcquire R T s t).2 = true ↔ limiterCount s t + 1 ≤ R) ∧
    ((limiterAcquire R T s t).2 = false →
      limStored ((limiterAcquire R T s t).1) = some (limiterCount s t + 1)) :=
  ⟨rfl, by simp [limiterAcquire], fun _ => rfl⟩

theorem limiter_acquire_semantics_witness :
    limStored ((limiterAcquire 0 60 Option.none 7).1) =
      some (limiterCount Option.none 7 + 1) :=
  (limiter_acquire_semantics 0 60 Option.none 7).2.2 (by decide)

/-- C4 counterexample: rate_limit 1, window T = 3.  Acquires run at times
0 and 2 (the second inside the window of the first).  The claim says the
counter resets to zero no later than time 0 + 3 regardless of further
acquires, but at probe time 4 > 3 the counter still reads 2: the second
acquire refreshed the expiry to 2 + 3 = 5, because `RedisLimiter.acquire`
(limiter.py line 36) EXPIREs the key on every call, not only on the
window's first increment. -/
theorem limiter_window_reset_cex :
    limiterCount ((limiterAcquire 1 3 ((limiterAcquire 1 3 Option.none 0).1) 2).1) 4 = 2 ∧
    0 + 3 < 4 := by
  decide

/-- Helper: a run of acquires all strictly inside the first caller's
window (every time < t0 + T, times nondecreasing) never sees the key
expire, so the counter just counts calls and the k-th call from a stored
count of c returns `c + k ≤ R`. -/
theorem limiterRun_window (R T : Nat) :
    ∀ (ts : List Nat) (t0 c tprev : Nat), t0 ≤ tprev →
    List.Chain (· ≤ ·) tprev ts → (∀ t ∈ ts, t < t0 + T) →
    (limiterRun R T (some (c, tprev + T)) ts).1 =
      (List.range ts.length).map (fun i => decide (c + i + 1 ≤ R)) ∧
    limStored (limiterRun R T (some (c, tprev + T)) ts).2 = some (c + ts.length) := by
  intro ts
  induction ts with
  | nil => intro t0 c tprev _ _ _; simp [limiterRun, limStored]
  | cons t ts ih =>
      intro t0 c tprev ht0 hchain hmem
      rw [List.chain_cons] at hchain
      obtain ⟨htp, hchain'⟩ := hchain
      have htw : t < t0 + T := hmem t (by simp)
      have hnoexp : ¬(tprev + T ≤ t) := by omega
      have hcount : limiterCount (some (c, tprev + T)) t = c := by
        simp [limiterCount, limNorm, hnoexp]
      have hstep : limiterAcquire R T (some (c, tprev + T)) t =
          (some (c + 1, t + T), decide (c + 1 ≤ R)) := by
        simp [limiterAcquire, hcount]
      have ih2 := ih t0 (c + 1) t (le_trans ht0 htp) hchain'
        (fun u hu => hmem u (by simp [hu]))
      obtain ⟨ih2a, ih2b⟩ := ih2
      constructor
      · simp only [limiterRun, hstep]
        rw [ih2a, List.length_cons, List.range_succ_eq_map, List.map_cons,
          List.map_map]
        refine congrArg₂ _ (by simp) (List.map_congr_left ?_)
        intro i _
        simp only [Function.comp_apply, decide_eq_decide]
        omega
      · simp only [limiterRun, hstep]
        rw [ih2b, List.length_cons]
        exact congrArg _ (by omega)

/-- C4 amended: the counter's expiry is refreshed to `t + int(time_period)`
by every acquire, so the counter is guaranteed to read zero only once
`int(time_period)` seconds pass after the most recent increment (not the
first); within a burst whose acquires all happen strictly less than T
seconds after the first, nothing expires and the Nth acquire succeeds iff
N ≤ rate_limit, the stored count reaching N; and an acquire at or after
the current expiry deadline restarts the counter at 1 (a fresh window),
succeeding iff 1 ≤ rate_limit. -/
theorem limiter_window_amended :
    (∀ (R T : Nat) (s : LimState) (t tp : Nat), t + T ≤ tp →
      limiterCount ((limiterAcquire R T s t).1) tp = 0) ∧
    (∀ (R T t0 : Nat) (ts : List Nat), List.Chain (· ≤ ·) t0 ts →
      (∀ t ∈ ts, t < t0 + T) →
      (limiterRun R T Option.none (t0 :: ts)).1 =
        (List.range (ts.length + 1)).map (fun i => decide (i + 1 ≤ R)) ∧
      limStored (limiterRun R T Option.none (t0 :: ts)).2 = some (ts.length + 1)) ∧
    (∀ (R T c e t : Nat), e ≤ t →
      limiterAcquire R T (some (c, e)) t = (some (1, t + T), decide (1 ≤ R))) := by
  refine ⟨?_, ?_, ?_⟩
  · intro R T s t tp h
    simp [limiterAcquire, limiterCount, limNorm, h]
  · intro R T t0 ts hchain hmem
    have hfirst : limiterAcquire R T Option.none t0 =
        (some (1, t0 + T), decide (1 ≤ R)) := by
      simp [limiterAcquire, limiterCount, limNorm]
    have hrest := limiterRun_window R T ts t0 1 t0 le_rfl hchain hmem
    obtain ⟨ha, hb⟩ := hrest
    constructor
    · simp only [limiterRun, hfirst]
      rw [ha, List.range_succ_eq_map, List.map_cons, List.map_map]
      refine congrArg₂ _ (by simp) (List.map_congr_left ?_)
      intro i _
      simp only [Function.comp_apply, decide_eq_decide]
      omega
    · simp only [limiterRun, hfirst]
      rw [hb]
      exact congrArg _ (by omega)
  · intro R T c e t h
    simp [limiterAcquire, limiterCount, limNorm, h]

theorem limiter_window_amended_witness :
    (limiterRun 2 5 Option.none [0, 1, 3]).1 =
      (List.range 3).map (fun i => decide (i + 1 ≤ 2)) ∧
    limStored (limiterRun 2 5 Option.none [0, 1, 3]).2 = some 3 :=
  limiter_window_amended.2.1 2 5 0 [1, 3]
    (List.Chain.cons (by omega) (List.Chain.cons (by omega) List.Chain.nil))
    (by decide)

mutual

/-- Helper: on the JSON-faithful fragment the encoder succeeds, its output
is not mistaken for the pickle wrapper, and `json.loads` maps it back to
the original value. -/
theorem jsonEncode_faithful (v : PyVal) (h : jsonFaithful v = true) :
    ∃ j, jsonEncode v = some j ∧ isPickleWrapper j = false ∧ jToPy j = v := by
  cases v with
  | pynone => exact ⟨.null, rfl, rfl, rfl⟩
  | pybool b => exact ⟨.jbool b, rfl, rfl, rfl⟩
  | pyint n => exact ⟨.jint n, rfl, rfl, rfl⟩
  | pystr s => exact ⟨.jstr s, rfl, rfl, rfl⟩
  | pylist xs =>
      have hxs : jsonFaithfulList xs = true := by
        simpa [jsonFaithful] using h
      obtain ⟨js, hjs, hback⟩ := jsonEncodeList_faithful xs hxs
      exact ⟨.jarr js, by simp [jsonEncode, hjs], rfl, by simp [jToPy, hback]⟩
  | pydict kvs =>
      have h2 : jsonFaithfulKVs kvs = true ∧ hasFormatKey kvs = false := by
        have := h
        simp [jsonFaithful] at this
        exact this
      obtain ⟨js, hjs, hback, hwrap⟩ := jsonEncodeKVs_faithful kvs h2.1
      refine ⟨.jobj js, by simp [jsonEncode, hjs], ?_, by simp [jToPy, hback]⟩
      simpa [isPickleWrapper] using hwrap h2.2
  | pytuple xs => simp [jsonFaithful] at h
  | pyset xs => simp [jsonFaithful] at h
  | pydatetime s => simp [jsonFaithful] at h
  | pyuuid s => simp [jsonFaithful] at h
  | pyobj n => simp [jsonFaithful] at h

theorem jsonEncodeList_faithful (xs : List PyVal) (h : jsonFaithfulList xs = true) :
    ∃ js, jsonEncodeList xs = some js ∧ jToPyList js = xs := by
  cases xs with
  | nil => exact ⟨[], rfl, rfl⟩
  | cons v vs =>
      have h2 : jsonFaithful v = true ∧ jsonFaithfulList vs = true := by
        have := h
        simp [jsonFaithfulList] at this
        exact this
      obtain ⟨j, hj, _, hjb⟩ := jsonEncode_faithful v h2.1
      obtain ⟨js, hjs, hjsb⟩ := jsonEncodeList_faithful vs h2.2
      exact ⟨j :: js, by simp [jsonEncodeList, hj, hjs],
        by simp [jToPyList, hjb, hjsb]⟩

theorem jsonEncodeKVs_faithful (kvs : List (PyVal × PyVal))
    (h : jsonFaithfulKVs kvs = true) :
    ∃ js, jsonEncodeKVs kvs = some js ∧ jToPyKVs js = kvs ∧
      (hasFormatKey kvs = false → isWrapperEntries js = false) := by
  cases kvs with
  | nil => exact ⟨[], rfl, rfl, fun _ => rfl⟩
  | cons kv kvs =>
      obtain ⟨k, v⟩ := kv
      cases k with
      | pystr s =>
          have h2 : jsonFaithful v = true ∧ jsonFaithfulKVs kvs = true := by
            have := h
            simp [jsonFaithfulKVs] at this
            exact this
          obtain ⟨j, hj, _, hjb⟩ := jsonEncode_faithful v h2.1
          obtain ⟨js, hjs, hjsb, hjsw⟩ := jsonEncodeKVs_faithful kvs h2.2
          refine ⟨(s, j) :: js, by simp [jsonEncodeKVs, keyEncode, hj, hjs],
            by simp [jToPyKVs, hjb, hjsb], ?_⟩
          intro hfk
          have hfk2 : decide (s = "__format__") = false ∧ hasFormatKey kvs = false := by
            have := hfk
            simp [hasFormatKey] at this
            exact ⟨by simpa using this.1, this.2⟩
          have hs : ¬(s = "__format__") := by simpa using hfk2.1
          simp [isWrapperEntries, hs]
          exact hjsw hfk2.2
      | pynone => simp [jsonFaithfulKVs] at h
      | pybool b => simp [jsonFaithfulKVs] at h
      | pyint n => simp [jsonFaithfulKVs] at h
      | pylist xs => simp [jsonFaithfulKVs] at h
      | pytuple xs => simp [jsonFaithfulKVs] at h
      | pyset xs => simp [jsonFaithfulKVs] at h
      | pydict kvs2 => simp [jsonFaithfulKVs] at h
      | pydatetime s => simp [jsonFaithfulKVs] at h
      | pyuuid s => simp [jsonFaithfulKVs] at h
      | pyobj n => simp [jsonFaithfulKVs] at h

end

/-- C7 counterexample: the codec accepts the composite value `(1, 2)` (a
tuple — `json.dumps` serializes tuples as JSON arrays), but
`deserialize(serialize((1, 2)))` returns the list `[1, 2]`, not the
original tuple, so the claimed round trip fails on an accepted composite
value. -/
theorem serializer_round_trip_cex :
    deserialize (serialize (PyVal.pytuple [PyVal.pyint 1, PyVal.pyint 2])) =
      Except.ok (PyVal.pylist [PyVal.pyint 1, PyVal.pyint 2]) ∧
    PyVal.pylist [PyVal.pyint 1, PyVal.pyint 2] ≠
      PyVal.pytuple [PyVal.pyint 1, PyVal.pyint 2] := by
  constructor
  · simp [serialize, deserialize, jsonEncode, jsonEncodeList, isPickleWrapper,
      isWrapperEntries, jToPy, jToPyList]
  · intro h
    exact PyVal.noConfusion h

/-- C7 amended: `deserialize(serialize(v)) = v` holds on the JSON-faithful
fragment (primitives, lists and string-keyed dicts of such, with the
reserved `"__format__"` marker key excluded) and on every value the JSON
encoder rejects, which takes the self-describing
`{"__format__": "pickle", "data": base64}` wrapper that the decode path
recognizes and reverses.  It does not hold for values the JSON layer
coerces — tuples and sets become lists, `datetime`/`UUID` become strings,
non-string dict keys become strings — as the counterexample shows. -/
theorem serializer_round_trip :
    (∀ v : PyVal, jsonFaithful v = true → deserialize (serialize v) = Except.ok v) ∧
    (∀ v : PyVal, jsonEncode v = Option.none →
      deserialize (serialize v) = Except.ok v) := by
  constructor
  · intro v h
    obtain ⟨j, hj, hw, hb⟩ := jsonEncode_faithful v h
    simp [serialize, hj, deserialize, hw, hb]
  · intro v h
    simp [serialize, h, deserialize]

theorem serializer_round_trip_witness :
    deserialize (serialize (PyVal.pydict
      [(PyVal.pystr "a", PyVal.pylist [PyVal.pyint 1, PyVal.pynone])])) =
      Except.ok (PyVal.pydict
        [(PyVal.pystr "a", PyVal.pylist [PyVal.pyint 1, PyVal.pynone])]) ∧
    deserialize (serialize (PyVal.pyobj 7)) = Except.ok (PyVal.pyobj 7) :=
  ⟨serializer_round_trip.1 _
      (by simp [jsonFaithful, jsonFaithfulList, jsonFaithfulKVs, hasFormatKey]),
   serializer_round_trip.2 (PyVal.pyobj 7) (by simp [jsonEncode])⟩

/-- C8. Key naming: a lock named `n` uses key `redisify:lock:` ++ n, a
semaphore `redisify:semaphore:` ++ n, and a reader/writer lock suffixes
`:write` and `:readers` to its base `redisify:rwlock:` ++ n; for any one
name the four store keys are pairwise distinct. -/
theorem key_naming (n : String) :
    lockKeyOf n = "redisify:lock:" ++ n ∧
    semKeyOf n = "redisify:semaphore:" ++ n ∧
    rwWriteKeyOf n = ("redisify:rwlock:" ++ n) ++ ":write" ∧
    rwReadersKeyOf n = ("redisify:rwlock:" ++ n) ++ ":readers" ∧
    lockKeyOf n ≠ semKeyOf n ∧
    lockKeyOf n ≠ rwWriteKeyOf n ∧
    lockKeyOf n ≠ rwReadersKeyOf n ∧
    semKeyOf n ≠ rwWriteKeyOf n ∧
    semKeyOf n ≠ rwReadersKeyOf n ∧
    rwWriteKeyOf n ≠ rwReadersKeyOf n := by
  have e1 : ("redisify:lock:" : String).length = 14 := by decide
  have e2 : ("redisify:semaphore:" : String).length = 19 := by decide
  have e3 : ("redisify:rwlock:" : String).length = 16 := by decide
  have e4 : (":write" : String).length = 6 := by decide
  have e5 : (":readers" : String).length = 8 := by decide
  refine ⟨rfl, rfl, rfl, rfl, ?_, ?_, ?_, ?_, ?_, ?_⟩ <;>
  · intro h
    have hl := congrArg String.length h
    simp only [lockKeyOf, semKeyOf, rwWriteKeyOf, rwReadersKeyOf, rwBaseOf,
      String.length_append, e1, e2, e3, e4, e5] at hl
    omega

theorem key_naming_witness :
    lockKeyOf "jobs" ≠ semKeyOf "jobs" :=
  (key_naming "jobs").2.2.2.2.1
